import Mathlib

/-!
Shallow embedding of the `vesc-comm` packet codec (src/src/lib.rs,
src/src/responses.rs) and proofs about it.

Modelling conventions:
* Bytes are `Nat`s; theorems that need byte-validity carry `< 256` hypotheses.
* The serial transport's single-byte reads are modelled by a list of `Rd`
  events: `Rd.byte b` is a successful (post-`block!`) read delivering `b`,
  `Rd.fail` is a hard transport error (`nb::Error::Other`).  `block!` absorbs
  `WouldBlock`, so pending states are invisible at this level.
* Single-byte writes are modelled by `Wr` outcomes indexed by write count:
  `Wr.accept` delivers the byte to the wire, `Wr.reject` is a hard error
  (which `write_packet` discards via `.ok()`).
* The Rust code reaches `unwrap()` on several paths (hard read errors,
  `heapless::Vec::push` on a full buffer, out-of-range slice indexing,
  `Fault::from_u8(..).unwrap()`).  Those aborts are modelled by the explicit
  outcome `Res.panic`; a reader stream that the code would block on forever
  (exhausted event list) is `Res.stall`.
* `f32` fields of `responses::Values` are modelled as exact rationals; every
  concrete value appearing in the statements below is exactly representable,
  so no rounding behaviour is being asserted away.
-/

/-- Errors returned if a command fails (`enum Error` in src/src/lib.rs). -/
inductive Error : Type
  | IoError
  | ChecksumError
  | ParseError
deriving DecidableEq, Repr

/-- Controller faults (`enum Fault` in src/src/responses.rs). -/
inductive Fault : Type
  | None
  | OverVoltage
  | UnderVoltage
  | Drv
  | AbsOverCurrent
  | OverTempFet
  | OverTempMotor
deriving DecidableEq, Repr

/-- Commands (`enum Command` in src/src/lib.rs). -/
inductive Command : Type
  | FwVersion
  | JumpToBootloader
  | EraseNewApp
  | WriteNewAppData
  | GetValues
  | SetDuty
  | SetCurrent
  | SetCurrentBrake
  | SetRpm
  | SetPos
  | SetHandbrake
  | SetDetect
  | SetServoPos
  | SetMcConf
  | GetMcConf
  | GetMcConfDefault
  | SetAppConf
  | GetAppConf
  | GetAppConfDefault
  | SamplePrint
  | TerminalCmd
  | DetectMotorParam
  | DetectMotorRL
  | DetectMotorFluxLinkage
  | DetectEncoder
  | DetectHallFoc
  | Reboot
  | Alive
  | GetDecodedPpm
  | GetDecodedAdc
  | GetDecodedChuck
  | ForwardCan
  | SetChuckData
  | CustomAppData
  | NrfStartPairing
deriving DecidableEq, Repr

/-- Opcode of a command (`Command::value` in src/src/lib.rs). -/
def Command.value : Command → Nat
  | .FwVersion => 0
  | .JumpToBootloader => 1
  | .EraseNewApp => 2
  | .WriteNewAppData => 3
  | .GetValues => 4
  | .SetDuty => 5
  | .SetCurrent => 6
  | .SetCurrentBrake => 7
  | .SetRpm => 8
  | .SetPos => 9
  | .SetHandbrake => 10
  | .SetDetect => 11
  | .SetServoPos => 12
  | .SetMcConf => 13
  | .GetMcConf => 14
  | .GetMcConfDefault => 15
  | .SetAppConf => 16
  | .GetAppConf => 17
  | .GetAppConfDefault => 18
  | .SamplePrint => 19
  | .TerminalCmd => 20
  | .DetectMotorParam => 21
  | .DetectMotorRL => 22
  | .DetectMotorFluxLinkage => 23
  | .DetectEncoder => 24
  | .DetectHallFoc => 25
  | .Reboot => 26
  | .Alive => 27
  | .GetDecodedPpm => 28
  | .GetDecodedAdc => 29
  | .GetDecodedChuck => 30
  | .ForwardCan => 31
  | .SetChuckData => 32
  | .CustomAppData => 33
  | .NrfStartPairing => 34

/-- Fault decoding (`Fault::from_u8` in src/src/lib.rs): bytes 0..6 map to the
seven variants, everything else is `Error::ParseError`. -/
def Fault.from_u8 : Nat → Except Error Fault
  | 0 => .ok .None
  | 1 => .ok .OverVoltage
  | 2 => .ok .UnderVoltage
  | 3 => .ok .Drv
  | 4 => .ok .AbsOverCurrent
  | 5 => .ok .OverTempFet
  | 6 => .ok .OverTempMotor
  | _ => .error .ParseError

/-- One step of the bitwise CRC-16 shift register with polynomial 0x1021:
shift left by one and, when the bit shifted out was set, fold in the
polynomial; the register is kept to 16 bits. -/
def shift1 (c : Nat) : Nat :=
  ((2 * c) ^^^ (if c.testBit 15 then 4129 else 0)) % 65536

/-- Absorb one message byte into the CRC register: xor the byte into the top
half, then run eight shift steps.  This is the bitwise form of the XMODEM
CRC-16 (polynomial 0x1021, initial value 0, no reflection, no final xor)
computed by the `crc16` crate's `State::<XMODEM>::calculate` used in
src/src/lib.rs. -/
def crcStep (c b : Nat) : Nat :=
  shift1^[8] (c ^^^ b * 256)

/-- The 16-bit XMODEM CRC of a byte list, initial value 0. -/
def crc16 (l : List Nat) : Nat :=
  l.foldl crcStep 0

/-- The `crc` function of src/src/lib.rs: the XMODEM CRC-16 of the payload as
two big-endian bytes. -/
def crc (payload : List Nat) : List Nat :=
  [crc16 payload / 256, crc16 payload % 256]

/-- One event seen by a blocking single-byte read: a delivered byte or a hard
transport error. -/
inductive Rd : Type
  | byte (b : Nat)
  | fail
deriving DecidableEq, Repr

/-- Outcome of one blocking single-byte write attempt: accepted onto the wire
or rejected with a hard transport error. -/
inductive Wr : Type
  | accept
  | reject
deriving DecidableEq, Repr

/-- Result of one `block!(r.read()).ok().unwrap()`: the byte and the rest of
the stream, a panic (hard error hit `unwrap`), or an indefinite stall
(the stream has no further event). -/
inductive Next : Type
  | got (b : Nat) (r : List Rd)
  | panicked
  | stalled
deriving DecidableEq, Repr

/-- Take one byte from the read stream, as `block!(r.read()).ok().unwrap()`
does: a hard error panics, an exhausted stream stalls forever. -/
def next : List Rd → Next
  | [] => .stalled
  | .fail :: _ => .panicked
  | .byte b :: r => .got b r

/-- Result of an operation of the codec: a value, an error value, a panic
(the Rust code aborts via `unwrap`), or an indefinite stall. -/
inductive Res (α : Type) : Type
  | ok (a : α)
  | err (e : Error)
  | panic
  | stall
deriving DecidableEq, Repr

/-- Result of the payload-reading loop of `read_packet`. -/
inductive LoopOut : Type
  | done (payload : List Nat) (r : List Rd)
  | panicked
  | stalled
deriving DecidableEq, Repr

/-- The `for _ in 0..payload_len` loop of `read_packet`: read one byte at a
time and `push` it onto the `heapless::Vec<u8, U128>`.  The byte is read
first; then, if the vector already holds 128 bytes, `push` returns `Err` and
the `unwrap` panics. -/
def readPayloadLoop : Nat → List Nat → List Rd → LoopOut
  | 0, acc, r => .done acc r
  | n + 1, acc, r =>
    match next r with
    | .stalled => .stalled
    | .panicked => .panicked
    | .got b r1 =>
      if acc.length = 128 then .panicked
      else readPayloadLoop n (acc ++ [b]) r1

/-- The tail of `read_packet` after the payload length is known: read
`len` payload bytes, read the two checksum bytes, compare them with the CRC of
the collected payload (mismatch is `ChecksumError`), then require the trailing
byte to be the stop marker 0x03 (otherwise `ParseError`). -/
def readRest (len : Nat) (r : List Rd) : Res (List Nat) :=
  match readPayloadLoop len [] r with
  | .stalled => .stall
  | .panicked => .panic
  | .done payload r1 =>
    match next r1 with
    | .stalled => .stall
    | .panicked => .panic
    | .got h0 r2 =>
      match next r2 with
      | .stalled => .stall
      | .panicked => .panic
      | .got h1 r3 =>
        if crc payload = [h0, h1] then
          match next r3 with
          | .stalled => .stall
          | .panicked => .panic
          | .got stop _ => if stop = 3 then .ok payload else .err .ParseError
        else .err .ChecksumError

/-- The `read_packet` function of src/src/lib.rs: the first byte selects the
framing (0x02: one length byte; 0x03: two big-endian length bytes; anything
else: `IoError`), then the payload, checksum and stop byte are read. -/
def read_packet (r : List Rd) : Res (List Nat) :=
  match next r with
  | .stalled => .stall
  | .panicked => .panic
  | .got start r1 =>
    if start = 2 then
      match next r1 with
      | .stalled => .stall
      | .panicked => .panic
      | .got len r2 => readRest len r2
    else if start = 3 then
      match next r1 with
      | .stalled => .stall
      | .panicked => .panic
      | .got hi r2 =>
        match next r2 with
        | .stalled => .stall
        | .panicked => .panic
        | .got lo r3 => readRest (256 * hi + lo) r3
    else .err .IoError

/-- Deliver a byte sequence through the write transport one byte at a time
(`i` counts the write attempts made so far): an accepted byte reaches the
wire, a rejected one is lost — `write_packet` discards the `Result` of every
write with `.ok()`. -/
def emit : (Nat → Wr) → Nat → List Nat → List Nat
  | _, _, [] => []
  | w, i, b :: rest =>
    match w i with
    | .accept => b :: emit w (i + 1) rest
    | .reject => emit w (i + 1) rest

/-- The `write_packet` function of src/src/lib.rs: write the short start
marker 0x02, one length byte `payload.len() as u8`, the payload bytes, the two
CRC bytes and the stop byte 0x03.  Every single-byte write discards its error
with `.ok()`, and the function returns `Ok(())` unconditionally. -/
def write_packet (payload : List Nat) (w : Nat → Wr) : List Nat × Except Error Unit :=
  (emit w 0 ([2, payload.length % 256] ++ payload ++ crc payload ++ [3]),
   Except.ok ())

/-- Big-endian u16 at offset `i` of a payload (`BigEndian::read_u16`). -/
def be16 (p : List Nat) (i : Nat) : Nat :=
  256 * p.getD i 0 + p.getD (i + 1) 0

/-- Big-endian u32 at offset `i` of a payload (`BigEndian::read_u32`). -/
def be32 (p : List Nat) (i : Nat) : Nat :=
  16777216 * p.getD i 0 + 65536 * p.getD (i + 1) 0
    + 256 * p.getD (i + 2) 0 + p.getD (i + 3) 0

/-- Response to `get_fw_version()` (`struct FwVersion` in
src/src/responses.rs); `hw` always has 10 entries and `uuid` 12. -/
structure FwVersion : Type where
  major : Nat
  minor : Nat
  hw : List Nat
  uuid : List Nat
deriving DecidableEq, Repr

/-- Response to `get_values()` (`struct Values` in src/src/responses.rs);
the `f32` fields are modelled as exact rationals. -/
structure Values : Type where
  temp_fet : ℚ
  temp_motor : ℚ
  motor_current : ℚ
  input_current : ℚ
  id : ℚ
  iq : ℚ
  duty_cycle : ℚ
  rpm : ℚ
  input_voltage : ℚ
  amp_hours : ℚ
  amp_hours_charged : ℚ
  watt_hours : ℚ
  watt_hours_charged : ℚ
  tachometer : Nat
  tachometer_abs : Nat
  fault : Fault
  pid_pos : ℚ
  controller_id : Nat
deriving DecidableEq, Repr

/-- The `hw` array built by `get_fw_version`: a zero-filled 10-byte buffer
whose first `payload.len() - 15` entries are copied from offset 3 on. -/
def hwBytes (p : List Nat) : List Nat :=
  (List.range 10).map (fun i => if i < p.length - 15 then p.getD (3 + i) 0 else 0)

/-- The `uuid` array built by `get_fw_version`: the last 12 payload bytes. -/
def uuidBytes (p : List Nat) : List Nat :=
  (List.range 12).map (fun i => p.getD (p.length - 12 + i) 0)

/-- The response-handling part of `get_fw_version` in src/src/lib.rs, applied
to the reader stream.  An empty payload panics at `payload[0]`; an opcode
other than `FwVersion` is `ParseError`; a payload shorter than 15 bytes
panics while copying `uuid`/`hw` (index out of bounds or `len - 15`
underflow), and one longer than 25 bytes panics writing `hw[10]`. -/
def get_fw_version (r : List Rd) : Res FwVersion :=
  match read_packet r with
  | .stall => .stall
  | .panic => .panic
  | .err e => .err e
  | .ok p =>
    if p.length = 0 then .panic
    else if p.getD 0 0 ≠ Command.value .FwVersion then .err .ParseError
    else if p.length < 15 ∨ 25 < p.length then .panic
    else .ok { major := p.getD 1 0, minor := p.getD 2 0,
               hw := hwBytes p, uuid := uuidBytes p }

/-- The response-handling part of `get_values` in src/src/lib.rs, applied to
the reader stream.  An empty payload panics at `payload[0]`; a wrong opcode is
`ParseError`; a payload shorter than 58 bytes panics slicing one of the
fixed-offset fields; a fault byte the closed `Fault` set does not cover
panics at `Fault::from_u8(payload[53]).unwrap()`. -/
def get_values (r : List Rd) : Res Values :=
  match read_packet r with
  | .stall => .stall
  | .panic => .panic
  | .err e => .err e
  | .ok p =>
    if p.length = 0 then .panic
    else if p.getD 0 0 ≠ Command.value .GetValues then .err .ParseError
    else if p.length < 58 then .panic
    else
      match Fault.from_u8 (p.getD 53 0) with
      | .error _ => .panic
      | .ok f =>
        .ok { temp_fet := (be16 p 1 : ℚ) / 10
              temp_motor := (be16 p 3 : ℚ) / 10
              motor_current := (be32 p 5 : ℚ) / 100
              input_current := (be32 p 9 : ℚ) / 100
              id := (be32 p 13 : ℚ) / 100
              iq := (be32 p 17 : ℚ) / 100
              duty_cycle := (be16 p 21 : ℚ) / 1000
              rpm := (be32 p 23 : ℚ)
              input_voltage := (be16 p 27 : ℚ) / 10
              amp_hours := (be32 p 29 : ℚ) / 10000
              amp_hours_charged := (be32 p 33 : ℚ) / 10000
              watt_hours := (be32 p 37 : ℚ) / 10000
              watt_hours_charged := (be32 p 41 : ℚ) / 10000
              tachometer := be32 p 45
              tachometer_abs := be32 p 49
              fault := f
              pid_pos := (be32 p 54 : ℚ) / 1000000
              controller_id := 0 }

/-- A `u32` as four big-endian bytes. -/
def be32Bytes (v : Nat) : List Nat :=
  [v / 16777216 % 256, v / 65536 % 256, v / 256 % 256, v % 256]

/-- Modelled from the spec: `set_current` is called from
src/examples/cli.rs but its definition is not under src/.  Per spec section
4.2 it writes one frame whose 5-byte payload is the `SetCurrent` opcode
followed by the value as a big-endian u32, reads no response, and returns
success; the reader stream is therefore passed through untouched. -/
def set_current (value : Nat) (w : Nat → Wr) (r : List Rd) :
    (List Nat × Except Error Unit) × List Rd :=
  (write_packet (Command.value .SetCurrent :: be32Bytes value) w, r)

/-- A transport that accepts every write delivers the byte list unchanged. -/
theorem emit_accept (l : List Nat) : ∀ i : Nat, emit (fun _ => Wr.accept) i l = l := by
  induction l with
  | nil => intro i; rfl
  | cons b rest ih => intro i; simp [emit, ih]

/-- Reading `p.length + k` payload bytes from a stream beginning with the
bytes of `p` first collects the whole of `p`, provided the buffer does not
overflow. -/
theorem readPayloadLoop_append (p : List Nat) :
    ∀ (k : Nat) (acc : List Nat) (rest : List Rd), acc.length + p.length ≤ 128 →
    readPayloadLoop (p.length + k) acc (List.map Rd.byte p ++ rest) =
      readPayloadLoop k (acc ++ p) rest := by
  induction p with
  | nil => intro k acc rest _; simp
  | cons b p ih =>
    intro k acc rest h
    have hacc : ¬ acc.length = 128 := by
      simp [List.length_cons] at h; omega
    have hfuel : (b :: p).length + k = (p.length + k) + 1 := by
      simp [List.length_cons]; omega
    rw [hfuel]
    simp only [List.map_cons, List.cons_append, readPayloadLoop, next, hacc, if_false]
    have := ih k (acc ++ [b]) rest (by simp at h ⊢; omega)
    simpa using this

/-- Reading exactly `p.length` bytes from a stream beginning with `p`. -/
theorem readPayloadLoop_exact (p : List Nat) (rest : List Rd) (h : p.length ≤ 128) :
    readPayloadLoop p.length [] (List.map Rd.byte p ++ rest) = .done p rest := by
  have := readPayloadLoop_append p 0 [] rest (by simpa using h)
  simpa [readPayloadLoop] using this

/-- Behaviour of `read_packet` on a short frame carrying payload `p`,
checksum bytes `h0 h1` and arbitrary remaining stream `t`. -/
theorem read_packet_short_frame (p : List Nat) (h0 h1 : Nat) (t : List Rd)
    (hlen : p.length ≤ 128) :
    read_packet (Rd.byte 2 :: Rd.byte p.length ::
        (List.map Rd.byte p ++ (Rd.byte h0 :: Rd.byte h1 :: t))) =
      (if crc p = [h0, h1] then
         match next t with
         | .stalled => .stall
         | .panicked => .panic
         | .got stop _ => if stop = 3 then Res.ok p else .err .ParseError
       else .err .ChecksumError) := by
  simp only [read_packet, next, readRest, readPayloadLoop_exact p _ hlen]
  simp

/-- A short frame with the correct checksum parses up to the stop-byte check:
stop byte 3 yields the payload, anything else is `ParseError`. -/
theorem read_packet_good_frame (p : List Nat) (s : Nat) (hlen : p.length ≤ 128) :
    read_packet (List.map Rd.byte ([2, p.length] ++ p ++ crc p ++ [s])) =
      (if s = 3 then Res.ok p else .err .ParseError) := by
  have h := read_packet_short_frame p (crc16 p / 256) (crc16 p % 256) [Rd.byte s] hlen
  simp only [crc, if_pos rfl, next] at h
  simpa [crc] using h

/-- A short frame whose two checksum bytes do not equal the CRC of its
payload is rejected with `ChecksumError`. -/
theorem read_packet_bad_hash (p : List Nat) (h0 h1 : Nat) (t : List Rd)
    (hlen : p.length ≤ 128) (hne : crc p ≠ [h0, h1]) :
    read_packet (Rd.byte 2 :: Rd.byte p.length ::
        (List.map Rd.byte p ++ (Rd.byte h0 :: Rd.byte h1 :: t))) =
      .err .ChecksumError := by
  rw [read_packet_short_frame p h0 h1 t hlen, if_neg hne]

/-- Claim C1: serialising any payload of length 0 through 127 with
`write_packet` and parsing the produced byte stream with `read_packet`
succeeds and returns exactly the original payload. -/
theorem write_read_roundtrip (p : List Nat) (hlen : p.length ≤ 127)
    (hbytes : ∀ b ∈ p, b < 256) :
    read_packet (List.map Rd.byte (write_packet p (fun _ => Wr.accept)).1) = .ok p := by
  have hm : p.length % 256 = p.length := Nat.mod_eq_of_lt (by omega)
  simp only [write_packet, emit_accept, hm]
  rw [read_packet_good_frame p 3 (by omega)]
  simp

/-- Witness for C1 at the one-byte payload [1]. -/
theorem write_read_roundtrip_witness :
    ([1] : List Nat).length ≤ 127 ∧
      read_packet (List.map Rd.byte (write_packet [1] (fun _ => Wr.accept)).1) = .ok [1] :=
  ⟨by decide, write_read_roundtrip [1] (by decide) (by decide)⟩

/-- Claim C2: for every payload shorter than 256 bytes, `write_packet` emits
exactly the short start marker 0x02, one length byte equal to the payload
length, the payload verbatim, the big-endian XMODEM CRC-16 of the payload
alone, and the stop marker 0x03 — and nothing else — and reports success. -/
theorem write_packet_wire_format (p : List Nat) (hlen : p.length < 256) :
    write_packet p (fun _ => Wr.accept) =
      ([2, p.length] ++ p ++ [crc16 p / 256, crc16 p % 256] ++ [3], Except.ok ()) := by
  simp [write_packet, emit_accept, crc, Nat.mod_eq_of_lt hlen]

/-- Witness for C2 at the payload [4]. -/
theorem write_packet_wire_format_witness :
    ([4] : List Nat).length < 256 ∧
      write_packet [4] (fun _ => Wr.accept) =
        ([2, 1] ++ [4] ++ [crc16 [4] / 256, crc16 [4] % 256] ++ [3], Except.ok ()) :=
  ⟨by decide, write_packet_wire_format [4] (by decide)⟩

/-- Claim C3: `read_packet` discovers framing from its first byte — 0x02
makes the next byte the payload length, 0x03 makes the next two bytes the
big-endian payload length, any other first byte is `IoError` — and after a
successful checksum a trailing byte other than the stop marker 0x03 is
`ParseError`. -/
theorem read_packet_framing :
    (∀ b rest, b ≠ 2 → b ≠ 3 → read_packet (Rd.byte b :: rest) = .err .IoError)
    ∧ (∀ n rest, read_packet (Rd.byte 2 :: Rd.byte n :: rest) = readRest n rest)
    ∧ (∀ hi lo rest, read_packet (Rd.byte 3 :: Rd.byte hi :: Rd.byte lo :: rest) =
        readRest (256 * hi + lo) rest)
    ∧ (∀ (p : List Nat) (s : Nat), p.length ≤ 128 → s ≠ 3 →
        read_packet (List.map Rd.byte ([2, p.length] ++ p ++ crc p ++ [s])) =
          .err .ParseError) := by
  refine ⟨?_, ?_, ?_, ?_⟩
  · intro b rest hb2 hb3; simp [read_packet, next, hb2, hb3]
  · intro n rest; simp [read_packet, next]
  · intro hi lo rest; simp [read_packet, next]
  · intro p s hlen hs; rw [read_packet_good_frame p s hlen, if_neg hs]

/-- Witness for C3: first byte 7 is neither start marker, so `IoError`. -/
theorem read_packet_framing_witness :
    (7 : Nat) ≠ 2 ∧ (7 : Nat) ≠ 3 ∧ read_packet [Rd.byte 7] = .err .IoError :=
  ⟨by decide, by decide, read_packet_framing.1 7 [] (by decide) (by decide)⟩

/-- Claim C5 is refuted by this evaluation: a declared payload length
exceeding the 128-byte buffer capacity makes `read_packet` panic at
`payload.push(..).unwrap()` (the 129th push fails), rather than return an
error result. -/
theorem read_packet_overlong_panics (len : Nat) (hgt : 128 < len) (hlt : len < 256) :
    read_packet (List.map Rd.byte ([2, len] ++ List.replicate len 0)) = .panic := by
  obtain ⟨k, rfl⟩ : ∃ k, len = 128 + (k + 1) := ⟨len - 129, by omega⟩
  have hloop : readPayloadLoop (128 + (k + 1)) []
      (List.map Rd.byte (List.replicate (128 + (k + 1)) 0)) = .panicked := by
    rw [List.replicate_add, List.map_append]
    have h := readPayloadLoop_append (List.replicate 128 (0 : Nat)) (k + 1) []
      (List.map Rd.byte (List.replicate (k + 1) 0)) (by simp)
    simp only [List.length_replicate, List.nil_append] at h
    rw [h]
    simp [List.replicate_succ, readPayloadLoop, next]
  simp only [List.map_cons, List.map_append, List.cons_append, List.nil_append,
    read_packet, next, readRest]
  rw [hloop]
  simp

/-- Witness for the C5 refutation at declared length 129. -/
theorem read_packet_overlong_panics_witness :
    128 < 129 ∧
      read_packet (List.map Rd.byte ([2, 129] ++ List.replicate 129 0)) = .panic :=
  ⟨by decide, read_packet_overlong_panics 129 (by decide) (by decide)⟩

/-- Claim C6 is refuted by these evaluations: a hard transport failure on the
first read makes `read_packet` (and the public operations built on it) panic
at `.ok().unwrap()` instead of returning `IoError`, and `write_packet`
discards hard write failures with `.ok()` and still reports success even when
no byte reached the wire. -/
theorem transport_hard_failure_behavior :
    read_packet [Rd.fail] = .panic
    ∧ get_values [Rd.fail] = .panic
    ∧ get_fw_version [Rd.fail] = .panic
    ∧ write_packet [0] (fun _ => Wr.reject) = ([], Except.ok ()) := by
  refine ⟨rfl, rfl, rfl, ?_⟩
  simp [write_packet, crc, emit]

set_option maxRecDepth 8192 in
/-- Claim C10 (spec-modelled `set_current`): with value 100000 exactly one
frame is written, its 5-byte payload is the `SetCurrent` opcode 6 followed by
0x00 0x01 0x86 0xA0, the call returns success, and the reader stream is left
untouched. -/
theorem set_current_fire_and_forget (r : List Rd) :
    set_current 100000 (fun _ => Wr.accept) r =
      (([2, 5, 6, 0, 1, 134, 160] ++ crc [6, 0, 1, 134, 160] ++ [3],
        Except.ok ()), r) := by
  have h : write_packet (Command.value Command.SetCurrent :: be32Bytes 100000)
      (fun _ => Wr.accept) =
      ([2, 5, 6, 0, 1, 134, 160] ++ crc [6, 0, 1, 134, 160] ++ [3],
        Except.ok ()) := by rfl
  simp only [set_current, h]

/-- Witness for C10 on the empty reader stream. -/
theorem set_current_fire_and_forget_witness :
    set_current 100000 (fun _ => Wr.accept) [] =
      (([2, 5, 6, 0, 1, 134, 160] ++ crc [6, 0, 1, 134, 160] ++ [3],
        Except.ok ()), []) :=
  set_current_fire_and_forget []

/-- Xor by a fixed value is injective on the right. -/
theorem xor_cancel_right {a b c : Nat} (h : a ^^^ c = b ^^^ c) : a = b := by
  have h2 := congrArg (· ^^^ c) h
  simpa [Nat.xor_assoc] using h2

/-- Xor by a fixed value is injective on the left. -/
theorem xor_cancel_left {a b c : Nat} (h : c ^^^ a = c ^^^ b) : a = b := by
  have h2 := congrArg (c ^^^ ·) h
  simpa [← Nat.xor_assoc] using h2

/-- Xoring in a non-zero value changes the number. -/
theorem xor_ne_self {a e : Nat} (he : e ≠ 0) : a ^^^ e ≠ a := by
  intro h
  have h2 : a ^^^ e = a ^^^ 0 := by simpa using h
  exact he (xor_cancel_left h2)

/-- Reduction to 16 bits distributes over xor. -/
theorem xor_mod_two_pow (x y n : Nat) :
    (x ^^^ y) % 2 ^ n = x % 2 ^ n ^^^ y % 2 ^ n := by
  apply Nat.eq_of_testBit_eq
  intro i
  simp only [Nat.testBit_mod_two_pow, Nat.testBit_xor]
  cases h : decide (i < n) <;> simp

/-- Specialisation of `xor_mod_two_pow` to the CRC register width. -/
theorem xor_mod_65536 (x y : Nat) : (x ^^^ y) % 65536 = x % 65536 ^^^ y % 65536 := by
  have h := xor_mod_two_pow x y 16
  norm_num at h
  exact h

/-- Specialisation of `xor_mod_two_pow` to parity. -/
theorem xor_mod_2 (x y : Nat) : (x ^^^ y) % 2 = x % 2 ^^^ y % 2 := by
  have h := xor_mod_two_pow x y 1
  rw [pow_one] at h
  exact h

/-- The CRC shift step keeps the register within 16 bits. -/
theorem shift1_lt (c : Nat) : shift1 c < 65536 :=
  Nat.mod_lt _ (by norm_num)

/-- Xor of two 16-bit values is a 16-bit value. -/
theorem xor_lt_65536 {x y : Nat} (hx : x < 65536) (hy : y < 65536) :
    x ^^^ y < 65536 := by
  have e : (2 : Nat) ^ 16 = 65536 := by norm_num
  have h := Nat.xor_lt_two_pow (lt_of_lt_of_eq hx e.symm) (lt_of_lt_of_eq hy e.symm)
  exact lt_of_lt_of_eq h e

/-- Xor of two bytes is a byte. -/
theorem xor_lt_256 {x y : Nat} (hx : x < 256) (hy : y < 256) : x ^^^ y < 256 := by
  have e : (2 : Nat) ^ 8 = 256 := by norm_num
  have h := Nat.xor_lt_two_pow (lt_of_lt_of_eq hx e.symm) (lt_of_lt_of_eq hy e.symm)
  exact lt_of_lt_of_eq h e

/-- Bit 15 of a 16-bit value is set exactly when the value is at least
32768. -/
theorem testBit15_true_iff {u : Nat} (hu : u < 65536) :
    u.testBit 15 = true ↔ 32768 ≤ u := by
  rw [Nat.testBit_to_div_mod]
  have e : (2 : Nat) ^ 15 = 32768 := by norm_num
  rw [e]
  simp only [decide_eq_true_eq]
  omega

/-- The CRC shift step is injective on 16-bit registers: the polynomial 0x1021
is odd, so the step is multiplication by x in an invertible quotient ring. -/
theorem shift1_inj {u v : Nat} (hu : u < 65536) (hv : v < 65536)
    (h : shift1 u = shift1 v) : u = v := by
  unfold shift1 at h
  by_cases h15u : u.testBit 15 <;> by_cases h15v : v.testBit 15
  · rw [if_pos h15u, if_pos h15v, xor_mod_65536, xor_mod_65536] at h
    have h4 : (4129 : Nat) % 65536 = 4129 := rfl
    rw [h4] at h
    have h2 := xor_cancel_right h
    have hu2 : 32768 ≤ u := (testBit15_true_iff hu).mp h15u
    have hv2 : 32768 ≤ v := (testBit15_true_iff hv).mp h15v
    omega
  · exfalso
    rw [if_pos h15u, if_neg h15v, Nat.xor_zero] at h
    have hp := congrArg (· % 2) h
    simp only [Nat.mod_mod_of_dvd _ (by norm_num : (2 : Nat) ∣ 65536)] at hp
    rw [xor_mod_2] at hp
    simp [Nat.mul_mod_right] at hp
  · exfalso
    rw [if_neg h15u, if_pos h15v, Nat.xor_zero] at h
    have hp := congrArg (· % 2) h
    simp only [Nat.mod_mod_of_dvd _ (by norm_num : (2 : Nat) ∣ 65536)] at hp
    rw [xor_mod_2] at hp
    simp [Nat.mul_mod_right] at hp
  · rw [if_neg h15u, if_neg h15v, Nat.xor_zero, Nat.xor_zero] at h
    have hu2 : ¬ 32768 ≤ u := fun hge => h15u ((testBit15_true_iff hu).mpr hge)
    have hv2 : ¬ 32768 ≤ v := fun hge => h15v ((testBit15_true_iff hv).mpr hge)
    omega

/-- Iterating the CRC shift step is injective on 16-bit registers. -/
theorem shift1_iter_inj : ∀ (k : Nat) {u v : Nat}, u < 65536 → v < 65536 →
    shift1^[k] u = shift1^[k] v → u = v := by
  intro k
  induction k with
  | zero => intro u v _ _ h; simpa using h
  | succ k ih =>
    intro u v hu hv h
    rw [Function.iterate_succ_apply, Function.iterate_succ_apply] at h
    exact shift1_inj hu hv (ih (shift1_lt u) (shift1_lt v) h)

/-- Absorbing a byte keeps the CRC register within 16 bits. -/
theorem crcStep_lt (c b : Nat) : crcStep c b < 65536 := by
  unfold crcStep
  rw [show (8 : Nat) = 7 + 1 from rfl, Function.iterate_succ_apply']
  exact shift1_lt _

/-- Absorbing the same byte from different 16-bit registers keeps them
different. -/
theorem crcStep_inj_state {s t b : Nat} (hs : s < 65536) (ht : t < 65536)
    (hb : b < 256) (h : crcStep s b = crcStep t b) : s = t := by
  unfold crcStep at h
  have hb2 : b * 256 < 65536 := by omega
  have h2 := shift1_iter_inj 8 (xor_lt_65536 hs hb2) (xor_lt_65536 ht hb2) h
  exact xor_cancel_right h2

/-- Absorbing a byte and the same byte with some bits flipped from the same
16-bit register yields different registers. -/
theorem crcStep_byte_ne {s x e : Nat} (hs : s < 65536) (hx : x < 256)
    (he : e < 256) (he0 : e ≠ 0) : crcStep s (x ^^^ e) ≠ crcStep s x := by
  intro h
  unfold crcStep at h
  have hxe : x ^^^ e < 256 := xor_lt_256 hx he
  have h2 := shift1_iter_inj 8
    (xor_lt_65536 hs (by omega : (x ^^^ e) * 256 < 65536))
    (xor_lt_65536 hs (by omega : x * 256 < 65536)) h
  have h3 : (x ^^^ e) * 256 = x * 256 := xor_cancel_left h2
  have h4 : x ^^^ e = x := by omega
  exact xor_ne_self he0 h4

/-- Folding the CRC step over a byte list keeps the register within 16
bits. -/
theorem foldl_crcStep_lt : ∀ (l : List Nat) (s : Nat), s < 65536 →
    List.foldl crcStep s l < 65536 := by
  intro l
  induction l with
  | nil => intro s hs; simpa using hs
  | cons b l ih => intro s _; simpa using ih (crcStep s b) (crcStep_lt s b)

/-- Folding the CRC step over the same byte list from different 16-bit
registers yields different results. -/
theorem foldl_crcStep_ne : ∀ (l : List Nat), (∀ b ∈ l, b < 256) →
    ∀ {s t : Nat}, s < 65536 → t < 65536 → s ≠ t →
    List.foldl crcStep s l ≠ List.foldl crcStep t l := by
  intro l
  induction l with
  | nil => intro _ s t _ _ hne; simpa using hne
  | cons b l ih =>
    intro hb s t hs ht hne
    simp only [List.foldl_cons]
    refine ih (fun y hy => hb y (List.mem_cons_of_mem _ hy))
      (crcStep_lt s b) (crcStep_lt t b) ?_
    intro hEq
    exact hne (crcStep_inj_state hs ht (hb b (List.mem_cons_self _ _)) hEq)

/-- Flipping bits of one payload byte changes the 16-bit CRC. -/
theorem crc16_flip_ne (p1 : List Nat) (x : Nat) (p2 : List Nat) (e : Nat)
    (hx : x < 256) (hp2 : ∀ b ∈ p2, b < 256) (he : e < 256) (he0 : e ≠ 0) :
    crc16 (p1 ++ (x ^^^ e) :: p2) ≠ crc16 (p1 ++ x :: p2) := by
  unfold crc16
  rw [List.foldl_append, List.foldl_append]
  simp only [List.foldl_cons]
  have hslt : List.foldl crcStep 0 p1 < 65536 :=
    foldl_crcStep_lt p1 0 (by norm_num)
  exact foldl_crcStep_ne p2 hp2 (crcStep_lt _ _) (crcStep_lt _ _)
    (crcStep_byte_ne hslt hx he he0)

/-- Flipping bits of one payload byte changes the two CRC bytes. -/
theorem crc_flip_ne (p1 : List Nat) (x : Nat) (p2 : List Nat) (e : Nat)
    (hx : x < 256) (hp2 : ∀ b ∈ p2, b < 256) (he : e < 256) (he0 : e ≠ 0) :
    crc (p1 ++ (x ^^^ e) :: p2) ≠ crc (p1 ++ x :: p2) := by
  intro h
  simp only [crc, List.cons.injEq, and_true] at h
  exact crc16_flip_ne p1 x p2 e hx hp2 he he0 (by omega)

/-- Claim C4: `read_packet` returns `ChecksumError` whenever the two received
checksum bytes differ from the big-endian XMODEM CRC-16 of the received
payload; in particular, for payloads of length up to 127, flipping any single
bit of the payload region or of the CRC region of the frame produced by
`write_packet` makes `read_packet` fail with `ChecksumError`. -/
theorem read_packet_checksum_sensitivity :
    (∀ (p : List Nat) (h0 h1 : Nat) (t : List Rd), p.length ≤ 128 →
      crc p ≠ [h0, h1] →
      read_packet (Rd.byte 2 :: Rd.byte p.length ::
          (List.map Rd.byte p ++ (Rd.byte h0 :: Rd.byte h1 :: t))) =
        .err .ChecksumError)
    ∧ (∀ (p1 : List Nat) (x : Nat) (p2 : List Nat) (j : Nat),
        (p1 ++ x :: p2).length ≤ 127 → (∀ b ∈ p1 ++ x :: p2, b < 256) → j < 8 →
        read_packet (List.map Rd.byte ([2, (p1 ++ x :: p2).length] ++
            (p1 ++ (x ^^^ 2 ^ j) :: p2) ++ crc (p1 ++ x :: p2) ++ [3])) =
          .err .ChecksumError)
    ∧ (∀ (p : List Nat) (j : Nat), p.length ≤ 127 → j < 8 →
        read_packet (List.map Rd.byte ([2, p.length] ++ p ++
            [crc16 p / 256 ^^^ 2 ^ j, crc16 p % 256] ++ [3])) =
          .err .ChecksumError
        ∧ read_packet (List.map Rd.byte ([2, p.length] ++ p ++
            [crc16 p / 256, crc16 p % 256 ^^^ 2 ^ j] ++ [3])) =
          .err .ChecksumError) := by
  have hpow : ∀ j : Nat, j < 8 → 2 ^ j < 256 := by
    intro j hj
    have h := Nat.pow_lt_pow_right (by norm_num : 1 < 2) hj
    norm_num at h
    exact h
  refine ⟨?_, ?_, ?_⟩
  · intro p h0 h1 t hlen hne
    exact read_packet_bad_hash p h0 h1 t hlen hne
  · intro p1 x p2 j hlen hb hj
    have hL : (p1 ++ (x ^^^ 2 ^ j) :: p2).length = (p1 ++ x :: p2).length := by
      simp
    have hx : x < 256 := hb x (List.mem_append_right _ (List.mem_cons_self _ _))
    have hp2 : ∀ b ∈ p2, b < 256 := fun b hbm =>
      hb b (List.mem_append_right _ (List.mem_cons_of_mem _ hbm))
    have hcne : crc (p1 ++ (x ^^^ 2 ^ j) :: p2) ≠ crc (p1 ++ x :: p2) :=
      crc_flip_ne p1 x p2 (2 ^ j) hx hp2 (hpow j hj) (Nat.two_pow_pos j).ne'
    have h := read_packet_bad_hash (p1 ++ (x ^^^ 2 ^ j) :: p2)
      (crc16 (p1 ++ x :: p2) / 256) (crc16 (p1 ++ x :: p2) % 256) [Rd.byte 3]
      (by rw [hL]; omega) (by simpa [crc] using hcne)
    rw [hL] at h
    simpa [crc] using h
  · intro p j hlen hj
    have hne0 : (2 : Nat) ^ j ≠ 0 := (Nat.two_pow_pos j).ne'
    constructor
    · have hne : crc p ≠ [crc16 p / 256 ^^^ 2 ^ j, crc16 p % 256] := by
        intro h
        simp only [crc, List.cons.injEq, and_true] at h
        exact xor_ne_self hne0 h.symm
      have h := read_packet_bad_hash p (crc16 p / 256 ^^^ 2 ^ j)
        (crc16 p % 256) [Rd.byte 3] (by omega) hne
      simpa using h
    · have hne : crc p ≠ [crc16 p / 256, crc16 p % 256 ^^^ 2 ^ j] := by
        intro h
        simp only [crc, List.cons.injEq, true_and, and_true] at h
        exact xor_ne_self hne0 h.symm
      have h := read_packet_bad_hash p (crc16 p / 256)
        (crc16 p % 256 ^^^ 2 ^ j) [Rd.byte 3] (by omega) hne
      simpa using h

/-- Witness for C4: the empty-checksum mismatch case at payload [0] with
received checksum bytes 1, 0. -/
theorem read_packet_checksum_sensitivity_witness :
    ([0] : List Nat).length ≤ 128 ∧ crc [0] ≠ [1, 0] ∧
      read_packet (Rd.byte 2 :: Rd.byte ([0] : List Nat).length ::
          (List.map Rd.byte [0] ++ (Rd.byte 1 :: Rd.byte 0 :: []))) =
        .err .ChecksumError :=
  ⟨by decide, by decide,
    read_packet_checksum_sensitivity.1 [0] 1 0 [] (by decide) (by decide)⟩

set_option maxRecDepth 16384

/-- The `uuid` buffer copied by `get_fw_version` equals the last 12 payload
bytes. -/
theorem uuidBytes_eq (p : List Nat) (h : 12 ≤ p.length) :
    uuidBytes p = p.drop (p.length - 12) := by
  apply List.ext_getElem
  · simp [uuidBytes]
    omega
  · intro i h1 h2
    have h12 : i < 12 := by simpa [uuidBytes] using h1
    have hidx : p.length - 12 + i < p.length := by omega
    simp only [uuidBytes, List.getElem_map, List.getElem_range, List.getElem_drop]
    exact List.getD_eq_getElem p 0 hidx

/-- The `hw` buffer filled by `get_fw_version` equals the `payload.len() - 15`
bytes starting at offset 3, zero-padded on the right to 10 bytes, whenever the
payload length is between 15 and 25. -/
theorem hwBytes_eq (p : List Nat) (h15 : 15 ≤ p.length) (h25 : p.length ≤ 25) :
    hwBytes p =
      (p.drop 3).take (p.length - 15) ++ List.replicate (10 - (p.length - 15)) 0 := by
  have htlen : ((p.drop 3).take (p.length - 15)).length = p.length - 15 := by
    simp
    omega
  apply List.ext_getElem
  · simp [hwBytes]
    omega
  · intro i h1 h2
    have h10 : i < 10 := by simpa [hwBytes] using h1
    simp only [hwBytes, List.getElem_map, List.getElem_range]
    rw [List.getElem_append i h2]
    by_cases hik : i < p.length - 15
    · rw [dif_pos (show i < ((p.drop 3).take (p.length - 15)).length by
          rw [htlen]; exact hik), if_pos hik, List.getElem_take, List.getElem_drop]
      exact List.getD_eq_getElem p 0 (by omega)
    · rw [dif_neg (show ¬ i < ((p.drop 3).take (p.length - 15)).length by
          rw [htlen]; exact hik), if_neg hik]
      simp

/-- Claim C8 amended: after a successful frame read with a non-empty payload,
`get_fw_version` returns `ParseError` when `payload[0]` is not the
`FwVersion` opcode 0; and when the opcode matches and the payload length is
between 15 and 25 it returns major `payload[1]`, minor `payload[2]`, the
10-byte zero-filled hw buffer whose first `payload.len() - 15` bytes come
from offset 3, and the last 12 payload bytes as the uuid.  (Lengths above 25
make the Rust code panic writing `hw[10]`, so the claim's "at least 15" alone
is not enough.) -/
theorem get_fw_version_decode (r : List Rd) (p : List Nat)
    (hread : read_packet r = .ok p) (hne : p ≠ []) :
    (p.getD 0 0 ≠ 0 → get_fw_version r = .err .ParseError)
    ∧ (p.getD 0 0 = 0 → 15 ≤ p.length → p.length ≤ 25 →
        get_fw_version r = .ok
          { major := p.getD 1 0, minor := p.getD 2 0,
            hw := (p.drop 3).take (p.length - 15) ++
              List.replicate (10 - (p.length - 15)) 0,
            uuid := p.drop (p.length - 12) }) := by
  have h0 : ¬ p.length = 0 := fun h => hne (List.length_eq_zero.mp h)
  constructor
  · intro hop
    simp only [get_fw_version, hread]
    rw [if_neg h0,
      if_pos (show p.getD 0 0 ≠ Command.value Command.FwVersion from hop)]
  · intro hop h15 h25
    simp only [get_fw_version, hread]
    rw [if_neg h0,
      if_neg (show ¬ p.getD 0 0 ≠ Command.value Command.FwVersion from
        fun hc => hc hop),
      if_neg (show ¬ (p.length < 15 ∨ 25 < p.length) from by omega),
      hwBytes_eq p h15 h25, uuidBytes_eq p (by omega)]

/-- Counterexample to claim C8 as stated: a valid frame whose 26-byte payload
has the `FwVersion` opcode and length at least 15 does not produce a record —
the hw copy loop runs for `26 - 15 = 11` iterations and panics writing
`hw[10]` past the end of the 10-byte buffer. -/
theorem get_fw_version_overlong_hw_counterexample :
    read_packet (List.map Rd.byte
        ([2, 26] ++ List.replicate 26 0 ++ crc (List.replicate 26 0) ++ [3])) =
      .ok (List.replicate 26 0)
    ∧ get_fw_version (List.map Rd.byte
        ([2, 26] ++ List.replicate 26 0 ++ crc (List.replicate 26 0) ++ [3])) =
      .panic := by
  constructor <;> decide

/-- Witness for C8 on the spec's firmware-version scenario payload
(opcode 0, major 3, minor 40, hw "60", a 12-byte uuid; length 22). -/
theorem get_fw_version_decode_witness :
    read_packet (List.map Rd.byte ([2, 22] ++
        [0, 3, 40, 54, 48, 0, 0, 0, 0, 0, 1, 2, 3, 4, 5, 6, 7, 8, 9, 10, 11, 12] ++
        crc [0, 3, 40, 54, 48, 0, 0, 0, 0, 0, 1, 2, 3, 4, 5, 6, 7, 8, 9, 10, 11, 12] ++
        [3])) =
      .ok [0, 3, 40, 54, 48, 0, 0, 0, 0, 0, 1, 2, 3, 4, 5, 6, 7, 8, 9, 10, 11, 12]
    ∧ get_fw_version (List.map Rd.byte ([2, 22] ++
        [0, 3, 40, 54, 48, 0, 0, 0, 0, 0, 1, 2, 3, 4, 5, 6, 7, 8, 9, 10, 11, 12] ++
        crc [0, 3, 40, 54, 48, 0, 0, 0, 0, 0, 1, 2, 3, 4, 5, 6, 7, 8, 9, 10, 11, 12] ++
        [3])) =
      .ok
        { major := 3, minor := 40, hw := [54, 48, 0, 0, 0, 0, 0, 0, 0, 0],
          uuid := [1, 2, 3, 4, 5, 6, 7, 8, 9, 10, 11, 12] } := by
  have hread : read_packet (List.map Rd.byte ([2, 22] ++
      [0, 3, 40, 54, 48, 0, 0, 0, 0, 0, 1, 2, 3, 4, 5, 6, 7, 8, 9, 10, 11, 12] ++
      crc [0, 3, 40, 54, 48, 0, 0, 0, 0, 0, 1, 2, 3, 4, 5, 6, 7, 8, 9, 10, 11, 12] ++
      [3])) =
      .ok [0, 3, 40, 54, 48, 0, 0, 0, 0, 0, 1, 2, 3, 4, 5, 6, 7, 8, 9, 10, 11, 12] := by
    decide
  refine ⟨hread, ?_⟩
  have h := (get_fw_version_decode _
    [0, 3, 40, 54, 48, 0, 0, 0, 0, 0, 1, 2, 3, 4, 5, 6, 7, 8, 9, 10, 11, 12]
    hread (by decide)).2 (by decide) (by decide) (by decide)
  rw [h]
  decide

/-- Claim C7 amended: after a successful frame read with a non-empty payload,
`get_values` returns `ParseError` when `payload[0]` is not the `GetValues`
opcode 4; and when the opcode matches, the payload is at least 58 bytes long
and its fault byte `payload[53]` decodes, it returns the record read at the
fixed big-endian offsets of the layout table with the fixed scale factors and
`controller_id` 0.  (Shorter payloads and fault bytes above 6 make the Rust
code panic, so the claim's unconditional record construction does not
hold.) -/
theorem get_values_decode (r : List Rd) (p : List Nat) (f : Fault)
    (hread : read_packet r = .ok p) (hne : p ≠ []) :
    (p.getD 0 0 ≠ 4 → get_values r = .err .ParseError)
    ∧ (p.getD 0 0 = 4 → 58 ≤ p.length → Fault.from_u8 (p.getD 53 0) = .ok f →
        get_values r = .ok
          { temp_fet := (be16 p 1 : ℚ) / 10
            temp_motor := (be16 p 3 : ℚ) / 10
            motor_current := (be32 p 5 : ℚ) / 100
            input_current := (be32 p 9 : ℚ) / 100
            id := (be32 p 13 : ℚ) / 100
            iq := (be32 p 17 : ℚ) / 100
            duty_cycle := (be16 p 21 : ℚ) / 1000
            rpm := (be32 p 23 : ℚ)
            input_voltage := (be16 p 27 : ℚ) / 10
            amp_hours := (be32 p 29 : ℚ) / 10000
            amp_hours_charged := (be32 p 33 : ℚ) / 10000
            watt_hours := (be32 p 37 : ℚ) / 10000
            watt_hours_charged := (be32 p 41 : ℚ) / 10000
            tachometer := be32 p 45
            tachometer_abs := be32 p 49
            fault := f
            pid_pos := (be32 p 54 : ℚ) / 1000000
            controller_id := 0 }) := by
  have h0 : ¬ p.length = 0 := fun h => hne (List.length_eq_zero.mp h)
  constructor
  · intro hop
    simp only [get_values, hread]
    rw [if_neg h0,
      if_pos (show p.getD 0 0 ≠ Command.value Command.GetValues from hop)]
  · intro hop h58 hf
    simp only [get_values, hread]
    rw [if_neg h0,
      if_neg (show ¬ p.getD 0 0 ≠ Command.value Command.GetValues from
        fun hc => hc hop),
      if_neg (show ¬ p.length < 58 from by omega), hf]

/-- Counterexample to claim C7 as stated: after a successful frame read of
the one-byte payload [4] — whose first byte is the `GetValues` opcode —
`get_values` does not return a record: the Rust code panics slicing
`payload[1..3]`. -/
theorem get_values_short_payload_counterexample :
    read_packet (List.map Rd.byte ([2, 1] ++ [4] ++ crc [4] ++ [3])) = .ok [4]
    ∧ get_values (List.map Rd.byte ([2, 1] ++ [4] ++ crc [4] ++ [3])) = .panic := by
  constructor <;> decide

/-- Witness for C7 on the spec's telemetry scenario: opcode 4, bytes 1-2 are
0x00 0x64 so temp_fet is 10, byte 53 is 0x02 so the fault is UnderVoltage. -/
theorem get_values_decode_witness :
    read_packet (List.map Rd.byte ([2, 58] ++
        ([4, 0, 100] ++ List.replicate 50 0 ++ [2] ++ List.replicate 4 0) ++
        crc ([4, 0, 100] ++ List.replicate 50 0 ++ [2] ++ List.replicate 4 0) ++
        [3])) =
      .ok ([4, 0, 100] ++ List.replicate 50 0 ++ [2] ++ List.replicate 4 0)
    ∧ get_values (List.map Rd.byte ([2, 58] ++
        ([4, 0, 100] ++ List.replicate 50 0 ++ [2] ++ List.replicate 4 0) ++
        crc ([4, 0, 100] ++ List.replicate 50 0 ++ [2] ++ List.replicate 4 0) ++
        [3])) =
      .ok
        { temp_fet := 10, temp_motor := 0, motor_current := 0,
          input_current := 0, id := 0, iq := 0, duty_cycle := 0, rpm := 0,
          input_voltage := 0, amp_hours := 0, amp_hours_charged := 0,
          watt_hours := 0, watt_hours_charged := 0, tachometer := 0,
          tachometer_abs := 0, fault := .UnderVoltage, pid_pos := 0,
          controller_id := 0 } := by
  have hread : read_packet (List.map Rd.byte ([2, 58] ++
      ([4, 0, 100] ++ List.replicate 50 0 ++ [2] ++ List.replicate 4 0) ++
      crc ([4, 0, 100] ++ List.replicate 50 0 ++ [2] ++ List.replicate 4 0) ++
      [3])) =
      .ok ([4, 0, 100] ++ List.replicate 50 0 ++ [2] ++ List.replicate 4 0) := by
    decide
  refine ⟨hread, ?_⟩
  have h := (get_values_decode _
    ([4, 0, 100] ++ List.replicate 50 0 ++ [2] ++ List.replicate 4 0)
    .UnderVoltage hread (by decide)).2 (by decide) (by decide) (by rfl)
  rw [h]
  have e1 : be16 ([4, 0, 100] ++ List.replicate 50 0 ++ [2] ++ List.replicate 4 0) 1 = 100 := by decide
  have e3 : be16 ([4, 0, 100] ++ List.replicate 50 0 ++ [2] ++ List.replicate 4 0) 3 = 0 := by decide
  have e21 : be16 ([4, 0, 100] ++ List.replicate 50 0 ++ [2] ++ List.replicate 4 0) 21 = 0 := by decide
  have e27 : be16 ([4, 0, 100] ++ List.replicate 50 0 ++ [2] ++ List.replicate 4 0) 27 = 0 := by decide
  have g5 : be32 ([4, 0, 100] ++ List.replicate 50 0 ++ [2] ++ List.replicate 4 0) 5 = 0 := by decide
  have g9 : be32 ([4, 0, 100] ++ List.replicate 50 0 ++ [2] ++ List.replicate 4 0) 9 = 0 := by decide
  have g13 : be32 ([4, 0, 100] ++ List.replicate 50 0 ++ [2] ++ List.replicate 4 0) 13 = 0 := by decide
  have g17 : be32 ([4, 0, 100] ++ List.replicate 50 0 ++ [2] ++ List.replicate 4 0) 17 = 0 := by decide
  have g23 : be32 ([4, 0, 100] ++ List.replicate 50 0 ++ [2] ++ List.replicate 4 0) 23 = 0 := by decide
  have g29 : be32 ([4, 0, 100] ++ List.replicate 50 0 ++ [2] ++ List.replicate 4 0) 29 = 0 := by decide
  have g33 : be32 ([4, 0, 100] ++ List.replicate 50 0 ++ [2] ++ List.replicate 4 0) 33 = 0 := by decide
  have g37 : be32 ([4, 0, 100] ++ List.replicate 50 0 ++ [2] ++ List.replicate 4 0) 37 = 0 := by decide
  have g41 : be32 ([4, 0, 100] ++ List.replicate 50 0 ++ [2] ++ List.replicate 4 0) 41 = 0 := by decide
  have g45 : be32 ([4, 0, 100] ++ List.replicate 50 0 ++ [2] ++ List.replicate 4 0) 45 = 0 := by decide
  have g49 : be32 ([4, 0, 100] ++ List.replicate 50 0 ++ [2] ++ List.replicate 4 0) 49 = 0 := by decide
  have g54 : be32 ([4, 0, 100] ++ List.replicate 50 0 ++ [2] ++ List.replicate 4 0) 54 = 0 := by decide
  simp only [Res.ok.injEq, Values.mk.injEq]
  rw [e1, e3, e21, e27, g5, g9, g13, g17, g23, g29, g33, g37, g41, g45, g49, g54]
  norm_num

/-- Claim C9: `Fault::from_u8` maps 0..6 one-to-one onto the closed fault set
and fails for every larger byte; but `get_values` does not surface that
failure as `ParseError` — the `unwrap` in the Rust code panics instead, as
the final evaluation on a valid frame with fault byte 7 shows. -/
theorem fault_from_u8_closure :
    (Fault.from_u8 0 = .ok .None ∧ Fault.from_u8 1 = .ok .OverVoltage
      ∧ Fault.from_u8 2 = .ok .UnderVoltage ∧ Fault.from_u8 3 = .ok .Drv
      ∧ Fault.from_u8 4 = .ok .AbsOverCurrent
      ∧ Fault.from_u8 5 = .ok .OverTempFet
      ∧ Fault.from_u8 6 = .ok .OverTempMotor)
    ∧ (∀ n : Nat, 6 < n → Fault.from_u8 n = .error .ParseError)
    ∧ get_values (List.map Rd.byte ([2, 58] ++
        ([4] ++ List.replicate 52 0 ++ [7] ++ List.replicate 4 0) ++
        crc ([4] ++ List.replicate 52 0 ++ [7] ++ List.replicate 4 0) ++ [3])) =
      .panic := by
  refine ⟨⟨rfl, rfl, rfl, rfl, rfl, rfl, rfl⟩, ?_, by decide⟩
  intro n hn
  obtain ⟨k, rfl⟩ : ∃ k, n = k + 7 := ⟨n - 7, by omega⟩
  rfl

/-- Witness for C9 at fault byte 7. -/
theorem fault_from_u8_closure_witness :
    6 < 7 ∧ Fault.from_u8 7 = .error .ParseError :=
  ⟨by decide, fault_from_u8_closure.2.1 7 (by decide)⟩
